import Mathlib

/-!
Verification of the S3 upload utility (`aws_s3_upload.py`).

The Python source is shallowly embedded as pure Lean functions:

* Python strings are modelled by `String`, and the character-level
  operations (`rstrip('/')`, `lstrip('/')`, `replace("\\", "/")`,
  `endswith('/')`, `startswith('.')`, `lower()`) are defined over
  `String.data : List Char`.
* `pathlib.Path.name` and `pathlib.Path.suffix` are modelled by
  `pathName` and `pathSuffix` (POSIX path strings; splitting on `/`,
  dropping empty and `.` components, and the `rfind('.')` rule of
  `PurePath.suffix`).
* The S3 client (`boto3`) is an external collaborator; it is modelled by
  an oracle `String → String → Bool` that says, for a local path and a
  remote key, whether `upload_file` succeeds (`false` = the call raised,
  which the worker catches).
* The filesystem walk (`Path.rglob('*')` restricted to regular files) is
  modelled by a list of relative path strings; `str(file_path)` for a
  walked file is the POSIX join of the source directory string with the
  relative path.
* The thread pool of `_upload_concurrent` is modelled by a fold over the
  task list: the shared counters are mutated under a lock, one
  increment per task, so any interleaving of the critical sections is a
  serialization; the counter values after the pool drains are those of
  the fold.  Wall-clock timing and log lines are modelled as an event
  trace.
-/

namespace S3Upload

/-- Split a character list at every occurrence of `sep`
(the list-of-chars analogue of Python `str.split`). -/
def splitOnChar (sep : Char) : List Char → List (List Char)
  | [] => [[]]
  | c :: cs =>
    let r := splitOnChar sep cs
    if c == sep then [] :: r
    else
      match r with
      | [] => [[c]]
      | h :: t => (c :: h) :: t

/-- Python `dst_path.lstrip('/')`: drop every leading `/`. -/
def lstripSlashes (s : String) : String :=
  String.mk (s.data.dropWhile (fun c => c == '/'))

/-- Python `dst_path.rstrip('/')`: drop every trailing `/`. -/
def rstripSlashes (s : String) : String :=
  String.mk ((s.data.reverse.dropWhile (fun c => c == '/')).reverse)

/-- Python `s.replace("\\", "/")` for the one-character pattern:
map every backslash to a forward slash. -/
def replaceBackslash (s : String) : String :=
  String.mk (s.data.map (fun c => if c == '\\' then '/' else c))

/-- Python `s.endswith('/')`. -/
def endsWithSlash (s : String) : Bool :=
  match s.data.getLast? with
  | some c => c == '/'
  | none => false

/-- Python `s.startswith('.')`. -/
def startsWithDot (s : String) : Bool :=
  match s.data.head? with
  | some c => c == '.'
  | none => false

/-- The components of a POSIX path string, as `pathlib` parses it:
split on `/`, dropping empty components and `.` components. -/
def pathParts (s : String) : List String :=
  ((splitOnChar '/' s.data).map String.mk).filter (fun p => p != "" && p != ".")

/-- `pathlib.Path(s).name`: the last path component (or `""`). -/
def pathName (s : String) : String :=
  (pathParts s).getLast?.getD ""

/-- `pathlib.Path(s).suffix`: the extension of the final component.
`PurePath.suffix` takes `i = name.rfind('.')` and returns `name[i:]`
when `0 < i < len(name) - 1`, else the empty string. -/
def pathSuffix (s : String) : String :=
  let n := (pathName s).data
  match n.reverse.findIdx? (fun c => c == '.') with
  | none => ""
  | some j =>
    let i := n.length - 1 - j
    if i != 0 && j != 0 then String.mk (n.drop i) else ""

/-- Python `s.lower()` (the extensions involved are ASCII). -/
def lowerStr (s : String) : String :=
  String.mk (s.data.map Char.toLower)

/-- `str(dir / rel)` for a walked file: pathlib joins with a single `/`
(a normalized directory string ends in `/` only when it is the root). -/
def posixJoin (d rel : String) : String :=
  if endsWithSlash d then d ++ rel else d ++ "/" ++ rel

/-- The per-file HTTP headers dictionary built by `get_file_headers`:
`StorageClass` always present, `ContentType` and `CacheControl` optional. -/
structure Headers where
  storageClass : String
  contentType : Option String
  cacheControl : Option String
deriving DecidableEq

/-- The static extension → MIME type table (`content_types` in the source). -/
def content_types : List (String × String) :=
  [(".html", "text/html"),
   (".css", "text/css"),
   (".js", "application/javascript"),
   (".json", "application/json"),
   (".png", "image/png"),
   (".jpg", "image/jpeg"),
   (".jpeg", "image/jpeg"),
   (".gif", "image/gif"),
   (".svg", "image/svg+xml"),
   (".ico", "image/x-icon"),
   (".webp", "image/webp"),
   (".txt", "text/plain"),
   (".md", "text/markdown"),
   (".xml", "application/xml"),
   (".pdf", "application/pdf"),
   (".zip", "application/zip"),
   (".woff", "font/woff"),
   (".woff2", "font/woff2"),
   (".ttf", "font/ttf"),
   (".eot", "application/vnd.ms-fontobject")]

/-- `AsyncS3Uploader.get_file_headers`: start from
`{'StorageClass': 'STANDARD'}`, add `ContentType` when the lowercased
suffix is in the table, add `CacheControl: no-cache` when the file name
is exactly `index.html`. -/
def get_file_headers (file_path : String) : Headers :=
  let base : Headers := ⟨"STANDARD", none, none⟩
  let ext := lowerStr (pathSuffix file_path)
  let withCT : Headers :=
    match content_types.lookup ext with
    | some ct => { base with contentType := some ct }
    | none => base
  if pathName file_path == "index.html" then
    { withCT with cacheControl := some "no-cache" }
  else
    withCT

/-- The shared success/failure counters (`uploaded_count`, `failed_count`),
mutated under `self.lock`. -/
structure Tally where
  uploaded : Nat
  failed : Nat
deriving DecidableEq

/-- Observable behaviour of one invocation: the log lines and external
calls that the claims talk about, in program order. -/
inductive Event where
  | sourceNotFound : Event
  | unsupportedType : Event
  | elapsedTime : Event
  | dsStoreExcludedSingle (path : String) : Event
  | excludedInListing (path : String) : Event
  | hiddenWarning (path : String) : Event
  | clientCall (path key : String) (extra : Headers) : Event
  | uploadOk (path key : String) : Event
  | uploadFailed (path : String) : Event
deriving DecidableEq

/-- What the source path turns out to be: `Path.is_file()`,
`Path.is_dir()` (with the regular files found by `rglob('*')`, as paths
relative to the directory, each listed once), neither, or
`not Path.exists()`. -/
inductive PathKind where
  | file : PathKind
  | dir (files : List String) : PathKind
  | other : PathKind
  | missing : PathKind
deriving DecidableEq

/-- Result of one `upload` invocation: the returned boolean, the final
counters of the (fresh) uploader, and the event trace. -/
structure RunResult where
  ok : Bool
  tally : Tally
  events : List Event
deriving DecidableEq

/-- The key computed by `_upload_single_file_sync` from the destination
string it receives and `file_path.name`. -/
def singleFileKey (dst_path name : String) : String :=
  lstripSlashes
    (if endsWithSlash dst_path || dst_path == "" then
      (if dst_path == "" then name else dst_path ++ "/" ++ name)
    else dst_path)

/-- The key computed for a walked directory entry:
`f"{dst_path}/{relative_path}".replace("\\", "/").lstrip('/')`. -/
def dirKey (dst_path relative_path : String) : String :=
  lstripSlashes (replaceBackslash (dst_path ++ "/" ++ relative_path))

/-- `AsyncS3Uploader._upload_single_file`: call the client, then under
the lock bump exactly one counter; every exception from the client is
caught here and becomes a failure.  `oracle` decides whether the client
call succeeds. -/
def upload_single_file (oracle : String → String → Bool) (t : Tally)
    (file_path s3_key : String) : Tally × Bool × List Event :=
  let extra := get_file_headers file_path
  if oracle file_path s3_key then
    ({ t with uploaded := t.uploaded + 1 }, true,
      [Event.clientCall file_path s3_key extra, Event.uploadOk file_path s3_key])
  else
    ({ t with failed := t.failed + 1 }, false,
      [Event.clientCall file_path s3_key extra, Event.uploadFailed file_path])

/-- `AsyncS3Uploader._upload_single_file_sync`: refuse `.DS_Store`, warn
on other dotfiles, compute the key, upload synchronously. -/
def upload_single_file_sync (oracle : String → String → Bool) (t : Tally)
    (file_path dst_path : String) : Tally × Bool × List Event :=
  if pathName file_path == ".DS_Store" then
    (t, false, [Event.dsStoreExcludedSingle file_path])
  else
    let warnEvents :=
      if startsWithDot (pathName file_path) then [Event.hiddenWarning file_path] else []
    let r := upload_single_file oracle t file_path (singleFileKey dst_path (pathName file_path))
    (r.1, r.2.1, warnEvents ++ r.2.2)

/-- The three lists accumulated by the walk loop of `_upload_directory`:
scheduled tasks `(str(file_path), s3_key)`, excluded `.DS_Store` paths,
and dotfile warnings. -/
structure DirScan where
  upload_tasks : List (String × String)
  excluded_files : List String
  warning_files : List String
deriving DecidableEq

/-- The `for file_path in dir_path.rglob('*')` loop of
`_upload_directory`, over the directory's regular files given as paths
relative to `dir_path`. -/
def scanDirectory (dir_path dst_path : String) (include_root : Bool) :
    List String → DirScan
  | [] => ⟨[], [], []⟩
  | rel :: rest =>
    let s := scanDirectory dir_path dst_path include_root rest
    let file_path := posixJoin dir_path rel
    if pathName file_path == ".DS_Store" then
      { s with excluded_files := file_path :: s.excluded_files }
    else
      { upload_tasks :=
          (file_path, dirKey dst_path (if include_root then file_path else rel))
            :: s.upload_tasks
        excluded_files := s.excluded_files
        warning_files :=
          if startsWithDot (pathName file_path) then file_path :: s.warning_files
          else s.warning_files }

/-- The pre-run log lines of `_upload_directory` (excluded files, then
dotfile warnings). -/
def scanEvents (s : DirScan) : List Event :=
  s.excluded_files.map Event.excludedInListing ++ s.warning_files.map Event.hiddenWarning

/-- The worker pool of `_upload_concurrent`, drained: each task runs
`_upload_single_file` once; the counters are incremented one critical
section at a time, so the drained pool is a fold over the tasks. -/
def runTasks (oracle : String → String → Bool) (t : Tally) :
    List (String × String) → Tally × List Event
  | [] => (t, [])
  | task :: rest =>
    let r := upload_single_file oracle t task.1 task.2
    let r2 := runTasks oracle r.1 rest
    (r2.1, r.2.2 ++ r2.2)

/-- `AsyncS3Uploader._upload_concurrent`: drain the pool, then return
`self.failed_count == 0`. -/
def upload_concurrent (oracle : String → String → Bool) (t : Tally)
    (upload_tasks : List (String × String)) : Tally × Bool × List Event :=
  let r := runTasks oracle t upload_tasks
  (r.1, r.1.failed == 0, r.2)

/-- The task-count dispatch of `_upload_directory`: zero tasks succeed
trivially, one task runs synchronously, more run through the pool. -/
def dispatchTasks (oracle : String → String → Bool) (t : Tally) :
    List (String × String) → Tally × Bool × List Event
  | [] => (t, true, [])
  | [task] => upload_single_file oracle t task.1 task.2
  | tasks => upload_concurrent oracle t tasks

/-- `AsyncS3Uploader._upload_directory`: walk, report exclusions and
warnings, dispatch. -/
def upload_directory (oracle : String → String → Bool) (t : Tally)
    (dir_path dst_path : String) (include_root : Bool) (files : List String) :
    Tally × Bool × List Event :=
  let scan := scanDirectory dir_path dst_path include_root files
  let r := dispatchTasks oracle t scan.upload_tasks
  (r.1, r.2.1, scanEvents scan ++ r.2.2)

/-- The module-level `upload(src, dst, include_root, workers)`: a fresh
uploader (counters at zero), `dst_path.rstrip('/')`, the existence
check (before timing starts, so a missing source produces no elapsed
line), then dispatch on the path kind; the `finally` block prints the
elapsed time for every branch inside the `try`. -/
def upload (oracle : String → String → Bool) (src_path : String)
    (kind : PathKind) (dst_path : String) (include_root : Bool) : RunResult :=
  let dst := rstripSlashes dst_path
  match kind with
  | PathKind.missing => ⟨false, ⟨0, 0⟩, [Event.sourceNotFound]⟩
  | PathKind.file =>
    let r := upload_single_file_sync oracle ⟨0, 0⟩ src_path dst
    ⟨r.2.1, r.1, r.2.2 ++ [Event.elapsedTime]⟩
  | PathKind.dir files =>
    let r := upload_directory oracle ⟨0, 0⟩ src_path dst include_root files
    ⟨r.2.1, r.1, r.2.2 ++ [Event.elapsedTime]⟩
  | PathKind.other => ⟨false, ⟨0, 0⟩, [Event.unsupportedType, Event.elapsedTime]⟩

/-! ### Helper lemmas -/

theorem lookup_eq_none_of_not_mem {l : List (String × String)} {k : String}
    (h : k ∉ l.map Prod.fst) : l.lookup k = none := by
  induction l with
  | nil => rfl
  | cons a t ih =>
    have h1 : ¬k = a.1 := by
      intro he
      exact h (by simp [he])
    have h2 : k ∉ t.map Prod.fst := by
      intro hm
      exact h (by simp [hm])
    have hk : (k == a.1) = false := beq_eq_false_iff_ne.mpr h1
    cases a with
    | mk a1 a2 =>
      simp only [List.lookup, hk]
      exact ih h2

theorem get_file_headers_storageClass (p : String) :
    (get_file_headers p).storageClass = "STANDARD" := by
  unfold get_file_headers
  cases hl : content_types.lookup (lowerStr (pathSuffix p)) <;>
    by_cases h : pathName p == "index.html" <;> simp [hl, h]

theorem get_file_headers_contentType (p : String) :
    (get_file_headers p).contentType = content_types.lookup (lowerStr (pathSuffix p)) := by
  unfold get_file_headers
  cases hl : content_types.lookup (lowerStr (pathSuffix p)) <;>
    by_cases h : pathName p == "index.html" <;> simp [hl, h]

theorem get_file_headers_cacheControl (p : String) :
    (get_file_headers p).cacheControl =
      (if pathName p = "index.html" then some "no-cache" else none) := by
  unfold get_file_headers
  cases hl : content_types.lookup (lowerStr (pathSuffix p)) <;>
    by_cases h : pathName p = "index.html" <;> simp [hl, h]

theorem runTasks_tally (oracle : String → String → Bool) :
    ∀ (tasks : List (String × String)) (t : Tally),
      ((runTasks oracle t tasks).1).uploaded + ((runTasks oracle t tasks).1).failed
        = t.uploaded + t.failed + tasks.length := by
  intro tasks
  induction tasks with
  | nil => intro t; simp [runTasks]
  | cons task rest ih =>
    intro t
    cases h : oracle task.1 task.2 <;>
      simp [runTasks, upload_single_file, h, ih] <;> omega

theorem data_mk (l : List Char) : (String.mk l).data = l := rfl

theorem data_append (a b : String) : (a ++ b).data = a.data ++ b.data := rfl

theorem str_ext {a b : String} (h : a.data = b.data) : a = b := by
  cases a
  cases b
  exact congrArg String.mk h

theorem head?_dropWhile_eq_false {p : Char → Bool} :
    ∀ (l : List Char) {a : Char}, (l.dropWhile p).head? = some a → p a = false := by
  intro l
  induction l with
  | nil =>
    intro a h
    simp [List.dropWhile] at h
  | cons c cs ih =>
    intro a h
    rw [List.dropWhile_cons] at h
    by_cases hc : p c = true
    · rw [if_pos hc] at h
      exact ih h
    · rw [if_neg hc] at h
      simp only [List.head?_cons, Option.some.injEq] at h
      rw [← h]
      simpa using hc

theorem dropWhile_subset {p : Char → Bool} :
    ∀ (l : List Char), ∀ c ∈ l.dropWhile p, c ∈ l := by
  intro l
  induction l with
  | nil => simp [List.dropWhile]
  | cons a t ih =>
    intro c hc
    rw [List.dropWhile_cons] at hc
    by_cases h : p a = true
    · rw [if_pos h] at hc
      exact List.mem_cons_of_mem a (ih c hc)
    · rw [if_neg h] at hc
      exact hc

theorem dropWhile_append_of_ne {p : Char → Bool} :
    ∀ (l1 l2 : List Char), l1.dropWhile p ≠ [] →
      (l1 ++ l2).dropWhile p = l1.dropWhile p ++ l2 := by
  intro l1
  induction l1 with
  | nil =>
    intro l2 h
    exact absurd rfl h
  | cons a t ih =>
    intro l2 h
    by_cases ha : p a = true
    · rw [List.cons_append, List.dropWhile_cons, if_pos ha, List.dropWhile_cons, if_pos ha]
      exact ih l2 (by rw [List.dropWhile_cons, if_pos ha] at h; exact h)
    · rw [List.cons_append, List.dropWhile_cons, if_neg ha, List.dropWhile_cons, if_neg ha]
      simp

theorem endsWithSlash_rstripSlashes (s : String) :
    endsWithSlash (rstripSlashes s) = false := by
  unfold endsWithSlash rstripSlashes
  rw [data_mk, List.getLast?_reverse]
  rcases h : (s.data.reverse.dropWhile (fun c => c == '/')).head? with _ | a
  · simp [h]
  · have hf := head?_dropWhile_eq_false _ h
    simp [h, hf]

theorem lstripSlashes_no_leading (s : String) :
    (lstripSlashes s).data.head? ≠ some '/' := by
  intro h
  unfold lstripSlashes at h
  rw [data_mk] at h
  have := head?_dropWhile_eq_false _ h
  simp at this

theorem not_mem_data_replaceBackslash (s : String) :
    '\\' ∉ (replaceBackslash s).data := by
  unfold replaceBackslash
  rw [data_mk]
  intro hm
  rcases List.mem_map.mp hm with ⟨c, _, hc⟩
  by_cases h : (c == '\\') = true
  · rw [if_pos h] at hc
    exact absurd hc (by decide)
  · rw [if_neg h] at hc
    rw [hc] at h
    simp at h

theorem replaceBackslash_append (a b : String) :
    replaceBackslash (a ++ b) = replaceBackslash a ++ replaceBackslash b := by
  apply str_ext
  unfold replaceBackslash
  rw [data_append, data_mk, data_mk, data_mk, data_append, List.map_append]

theorem no_backslash_dirKey (dst rp : String) : '\\' ∉ (dirKey dst rp).data := by
  unfold dirKey lstripSlashes
  rw [data_mk]
  intro hm
  exact not_mem_data_replaceBackslash _ (dropWhile_subset _ _ hm)

theorem head?_dirKey (dst rp : String) : (dirKey dst rp).data.head? ≠ some '/' := by
  unfold dirKey
  exact lstripSlashes_no_leading _

/-- The key rule actually implemented for single files reached through
`upload`: the destination has already lost every trailing slash, so the
`endswith('/')` branch of `_upload_single_file_sync` can only trigger
through emptiness. -/
theorem singleFileKey_rstrip (dstRaw name : String) :
    singleFileKey (rstripSlashes dstRaw) name =
      if rstripSlashes dstRaw = "" then lstripSlashes name
      else lstripSlashes (rstripSlashes dstRaw) := by
  have h := endsWithSlash_rstripSlashes dstRaw
  unfold singleFileKey
  by_cases he : rstripSlashes dstRaw = ""
  · simp [h, he]
  · have hb : (rstripSlashes dstRaw == "") = false := beq_eq_false_iff_ne.mpr he
    simp [h, hb, he]

/-- Every task recorded by the directory walk carries a `dirKey`. -/
theorem mem_upload_tasks_key {d dst : String} {ir : Bool} :
    ∀ (files : List String) (task : String × String),
      task ∈ (scanDirectory d dst ir files).upload_tasks →
      ∃ rp, task.2 = dirKey dst rp := by
  intro files
  induction files with
  | nil =>
    intro task h
    simp [scanDirectory] at h
  | cons rel rest ih =>
    intro task h
    by_cases hds : (pathName (posixJoin d rel) == ".DS_Store") = true
    · simp only [scanDirectory, if_pos hds] at h
      exact ih task h
    · simp only [scanDirectory, if_neg hds, List.mem_cons] at h
      rcases h with h | h
      · exact ⟨_, by rw [h]⟩
      · exact ih task h

/-- Every file of the walk that is not named `.DS_Store` yields its task. -/
theorem mem_upload_tasks_of_mem {d dst : String} {ir : Bool} :
    ∀ (files : List String) (rel : String), rel ∈ files →
      (pathName (posixJoin d rel) == ".DS_Store") = false →
      (posixJoin d rel, dirKey dst (if ir then posixJoin d rel else rel))
        ∈ (scanDirectory d dst ir files).upload_tasks := by
  intro files
  induction files with
  | nil =>
    intro rel h
    simp at h
  | cons rel0 rest ih =>
    intro rel hmem hds
    rcases List.mem_cons.mp hmem with h | h
    · subst h
      have hne : ¬((pathName (posixJoin d rel) == ".DS_Store") = true) := by
        simp [hds]
      simp only [scanDirectory, if_neg hne]
      exact List.mem_cons_self _ _
    · by_cases hds0 : (pathName (posixJoin d rel0) == ".DS_Store") = true
      · simp only [scanDirectory, if_pos hds0]
        exact ih rel h hds
      · simp only [scanDirectory, if_neg hds0]
        exact List.mem_cons_of_mem _ (ih rel h hds)

/-! ### Claim C5: the metadata resolver -/

/-- Claim C5: for every file path, `get_file_headers` yields the fixed
default storage class; the content type is the static-table lookup of
the lowercased extension and is absent for extensions outside the
table; and the cache-control header is the no-cache directive exactly
when the file name is `index.html`.  The resolver is a total Lean
function, so it has no error cases. -/
theorem claim_C5 (p : String) :
    (get_file_headers p).storageClass = "STANDARD" ∧
    (get_file_headers p).contentType = content_types.lookup (lowerStr (pathSuffix p)) ∧
    (lowerStr (pathSuffix p) ∉ content_types.map Prod.fst →
      (get_file_headers p).contentType = none) ∧
    ((get_file_headers p).cacheControl = some "no-cache" ↔ pathName p = "index.html") := by
  refine ⟨get_file_headers_storageClass p, get_file_headers_contentType p, ?_, ?_⟩
  · intro h
    rw [get_file_headers_contentType p, lookup_eq_none_of_not_mem h]
  · rw [get_file_headers_cacheControl p]
    by_cases h : pathName p = "index.html" <;> simp [h]

/-- Witness for C5 at `report.pdf` (mapped extension, ordinary name)
and `a.xyz` (unmapped extension). -/
theorem claim_C5_witness :
    (get_file_headers "report.pdf").storageClass = "STANDARD" ∧
    (get_file_headers "a.xyz").contentType = none := by
  exact ⟨(claim_C5 "report.pdf").1, (claim_C5 "a.xyz").2.2.1 (by decide)⟩

/-! ### Claim C9: case handling in the resolver -/

/-- Claim C9: the content-type lookup depends only on the lowercased
extension (so `photo.PNG` maps to `image/png`), while the
`index.html` cache-control check is case-sensitive on the file name
(so `INDEX.HTML` gets no cache-control header). -/
theorem claim_C9 :
    (∀ p q : String, lowerStr (pathSuffix p) = lowerStr (pathSuffix q) →
      (get_file_headers p).contentType = (get_file_headers q).contentType) ∧
    (get_file_headers "photo.PNG").contentType = some "image/png" ∧
    (get_file_headers "INDEX.HTML").cacheControl = none := by
  refine ⟨?_, by decide, by decide⟩
  intro p q h
  rw [get_file_headers_contentType p, get_file_headers_contentType q, h]

/-- Witness for C9: `photo.PNG` and `photo.png` share a lowercased
extension, hence a content type. -/
theorem claim_C9_witness :
    (get_file_headers "photo.PNG").contentType = (get_file_headers "photo.png").contentType :=
  claim_C9.1 "photo.PNG" "photo.png" (by decide)

/-! ### Claim C10: trailing slashes on the destination are irrelevant -/

/-- Claim C10: `upload` strips all trailing `/` from the destination
before any key mapping, so two destinations with equal stripped forms
(in particular, forms differing only in trailing slashes) give the
same remote keys, events and overall result. -/
theorem claim_C10 (oracle : String → String → Bool) (src : String) (kind : PathKind)
    (d1 d2 : String) (ir : Bool) (h : rstripSlashes d1 = rstripSlashes d2) :
    upload oracle src kind d1 ir = upload oracle src kind d2 ir := by
  unfold upload
  rw [h]

/-- Witness for C10: `/docs` and `/docs///` give identical runs. -/
theorem claim_C10_witness :
    upload (fun _ _ => true) "report.pdf" PathKind.file "/docs" false =
      upload (fun _ _ => true) "report.pdf" PathKind.file "/docs///" false :=
  claim_C10 (fun _ _ => true) "report.pdf" PathKind.file "/docs" "/docs///" false (by decide)

/-! ### Claim C8: the elapsed-time line -/

/-- Claim C8 counterexample: when the source path does not exist,
`upload` returns before the timed `try/finally` block is entered, so
the output contains no elapsed-time line, contradicting the claim that
every invocation reports one. -/
theorem claim_C8_counterexample :
    Event.elapsedTime ∉ (upload (fun _ _ => true) "missing.txt"
      PathKind.missing "/docs" false).events := by decide

/-- Claim C8 as amended: the elapsed-time line is printed for every
invocation whose source path exists (file, directory, or unsupported
path type), but not when the source path does not exist. -/
theorem claim_C8_amended (oracle : String → String → Bool) (src : String)
    (kind : PathKind) (dst : String) (ir : Bool) (h : kind ≠ PathKind.missing) :
    Event.elapsedTime ∈ (upload oracle src kind dst ir).events := by
  cases kind with
  | missing => exact absurd rfl h
  | file => simp [upload]
  | dir files => simp [upload]
  | other => simp [upload]

/-- Witness for the amended C8 at a single-file source. -/
theorem claim_C8_amended_witness :
    Event.elapsedTime ∈
      (upload (fun _ _ => true) "report.pdf" PathKind.file "/docs" false).events :=
  claim_C8_amended (fun _ _ => true) "report.pdf" PathKind.file "/docs" false (by decide)

/-! ### Claim C4: the tally invariant -/

/-- Claim C4: once the pool drains, `uploaded + failed` grew by exactly
the number of attempted tasks, and each single attempted task bumps
exactly one of the two counters — an upload whose client call raises is
caught at the worker boundary and counted as one failure, so it never
prevents the remaining tasks from being counted. -/
theorem claim_C4 (oracle : String → String → Bool) (t : Tally)
    (tasks : List (String × String)) :
    ((upload_concurrent oracle t tasks).1.uploaded
        + (upload_concurrent oracle t tasks).1.failed
      = t.uploaded + t.failed + tasks.length) ∧
    (∀ fp k,
      ((upload_single_file oracle t fp k).1.uploaded = t.uploaded + 1 ∧
        (upload_single_file oracle t fp k).1.failed = t.failed) ∨
      ((upload_single_file oracle t fp k).1.uploaded = t.uploaded ∧
        (upload_single_file oracle t fp k).1.failed = t.failed + 1)) := by
  constructor
  · simp [upload_concurrent, runTasks_tally]
  · intro fp k
    cases h : oracle fp k
    · right; simp [upload_single_file, h]
    · left; simp [upload_single_file, h]

/-! ### Claim C1: single-file key mapping -/

/-- Claim C1 counterexample: uploading the single file `report.pdf`
with destination `/docs/` calls the client with key `docs`, not
`docs/report.pdf`: `upload` strips the trailing slash before the
single-file mapper ever sees the destination, so the `/docs/` prefix
behaves as the verbatim key `/docs`. -/
theorem claim_C1_counterexample :
    Event.clientCall "report.pdf" "docs" (get_file_headers "report.pdf")
        ∈ (upload (fun _ _ => true) "report.pdf" PathKind.file "/docs/" false).events ∧
    Event.clientCall "report.pdf" "docs/report.pdf" (get_file_headers "report.pdf")
        ∉ (upload (fun _ _ => true) "report.pdf" PathKind.file "/docs/" false).events := by
  decide

/-- Claim C1 as amended: for a single-file upload the destination first
loses every trailing `/`; if the stripped destination is empty the
remote key is the file's base name, otherwise the stripped destination
itself (minus leading slashes) is used verbatim as the full key, and
this key is what reaches the storage client.  In particular destination
`/docs/` for `report.pdf` yields the key `docs`. -/
theorem claim_C1_amended :
    (∀ dstRaw name : String,
      singleFileKey (rstripSlashes dstRaw) name =
        if rstripSlashes dstRaw = "" then lstripSlashes name
        else lstripSlashes (rstripSlashes dstRaw)) ∧
    singleFileKey (rstripSlashes "/docs/") "report.pdf" = "docs" ∧
    (∀ (oracle : String → String → Bool) (src dstRaw : String) (ir : Bool),
      (pathName src == ".DS_Store") = false →
      Event.clientCall src (singleFileKey (rstripSlashes dstRaw) (pathName src))
          (get_file_headers src)
        ∈ (upload oracle src PathKind.file dstRaw ir).events) := by
  refine ⟨singleFileKey_rstrip, by decide, ?_⟩
  intro oracle src dstRaw ir hds
  cases hw : startsWithDot (pathName src) <;>
    cases hor : oracle src (singleFileKey (rstripSlashes dstRaw) (pathName src)) <;>
      simp [upload, upload_single_file_sync, upload_single_file, hds, hw, hor]

/-- Witness for the amended C1: the `report.pdf` upload with
destination `/x` reaches the client with the single-file key. -/
theorem claim_C1_amended_witness :
    Event.clientCall "report.pdf" (singleFileKey (rstripSlashes "/x") (pathName "report.pdf"))
        (get_file_headers "report.pdf")
      ∈ (upload (fun _ _ => true) "report.pdf" PathKind.file "/x" false).events :=
  claim_C1_amended.2.2 (fun _ _ => true) "report.pdf" "/x" false (by decide)

/-! ### Claim C2: directory keys in WholeTree mode -/

/-- Claim C2 counterexample: `include_root` does not use the path
relative to the source root's parent; it uses `str(file_path)` exactly
as spelled from the source argument.  For the source `/abs/dist`
containing `a.txt` and destination `/v1.0.0` the scheduled key is
`v1.0.0//abs/dist/a.txt`, not the claimed `v1.0.0/dist/a.txt`. -/
theorem claim_C2_counterexample :
    (scanDirectory "/abs/dist" "/v1.0.0" true ["a.txt"]).upload_tasks =
      [("/abs/dist/a.txt", "v1.0.0//abs/dist/a.txt")] ∧
    "v1.0.0//abs/dist/a.txt" ≠ "v1.0.0/dist/a.txt" := by
  decide

/-- Claim C2 as amended: in WholeTree mode each scheduled file's remote
key joins the destination with `str(file_path)` — the file's path as
spelled from the source argument — rather than a path made relative to
the source root's parent.  When the source is given as the bare
relative name `dist`, the two coincide: with destination `/v1.0.0`
every scheduled file gets the key `v1.0.0/dist/<relative-path>` (with
backslashes normalized). -/
theorem claim_C2_amended :
    (∀ (d dst rel : String) (files : List String), rel ∈ files →
      (pathName (posixJoin d rel) == ".DS_Store") = false →
      (posixJoin d rel, dirKey dst (posixJoin d rel))
        ∈ (scanDirectory d dst true files).upload_tasks) ∧
    (∀ (rel : String) (files : List String), rel ∈ files →
      (pathName (posixJoin "dist" rel) == ".DS_Store") = false →
      (posixJoin "dist" rel, "v1.0.0/dist/" ++ replaceBackslash rel)
        ∈ (scanDirectory "dist" "/v1.0.0" true files).upload_tasks) := by
  constructor
  · intro d dst rel files hmem hds
    have h := @mem_upload_tasks_of_mem d dst true files rel hmem hds
    simpa using h
  · intro rel files hmem hds
    have h := @mem_upload_tasks_of_mem "dist" "/v1.0.0" true files rel hmem hds
    have hkey : dirKey "/v1.0.0" (posixJoin "dist" rel) =
        "v1.0.0/dist/" ++ replaceBackslash rel := by
      unfold dirKey posixJoin
      rw [if_neg (by decide)]
      have h1 : "/v1.0.0" ++ "/" ++ ("dist" ++ "/" ++ rel) = "/v1.0.0/dist/" ++ rel := by
        apply str_ext
        simp only [data_append, ← List.append_assoc]
        congr 1
      rw [h1, replaceBackslash_append,
        show replaceBackslash "/v1.0.0/dist/" = "/v1.0.0/dist/" from by decide]
      apply str_ext
      unfold lstripSlashes
      rw [data_mk, data_append, dropWhile_append_of_ne _ _ (by decide), data_append]
      congr 1
    simpa [hkey] using h

/-- Witness for the amended C2 at the file `a.txt` inside `dist`. -/
theorem claim_C2_amended_witness :
    (posixJoin "dist" "a.txt", "v1.0.0/dist/" ++ replaceBackslash "a.txt")
      ∈ (scanDirectory "dist" "/v1.0.0" true ["a.txt"]).upload_tasks :=
  claim_C2_amended.2 "a.txt" ["a.txt"] (by decide) (by decide)

/-! ### Claim C7: key normalization -/

/-- Claim C7 counterexample: the single-file path performs no backslash
replacement, so a destination containing a backslash reaches the
storage client verbatim, contradicting the claim that every produced
key is backslash-free. -/
theorem claim_C7_counterexample :
    Event.clientCall "report.pdf" "docs\\x" (get_file_headers "report.pdf")
        ∈ (upload (fun _ _ => true) "report.pdf" PathKind.file "docs\\x" false).events ∧
    '\\' ∈ "docs\\x".data := by
  decide

/-- Claim C7 as amended: every key scheduled in directory mode has all
backslashes replaced and no leading slash; a single-file key has no
leading slash, but its backslashes are not replaced. -/
theorem claim_C7_amended :
    (∀ (d dst : String) (ir : Bool) (files : List String) (task : String × String),
      task ∈ (scanDirectory d dst ir files).upload_tasks →
      '\\' ∉ task.2.data ∧ task.2.data.head? ≠ some '/') ∧
    (∀ dst name : String, (singleFileKey dst name).data.head? ≠ some '/') := by
  constructor
  · intro d dst ir files task htask
    rcases mem_upload_tasks_key files task htask with ⟨rp, hrp⟩
    rw [hrp]
    exact ⟨no_backslash_dirKey dst rp, head?_dirKey dst rp⟩
  · intro dst name
    unfold singleFileKey
    exact lstripSlashes_no_leading _

/-- Witness for the amended C7 at a scheduled task of `dist`. -/
theorem claim_C7_amended_witness :
    '\\' ∉ ("v/dist/a.txt" : String).data ∧
      ("v/dist/a.txt" : String).data.head? ≠ some '/' :=
  claim_C7_amended.1 "dist" "/v" true ["a.txt"]
    ("dist/a.txt", "v/dist/a.txt") (by decide)

/-! ### Claim C6: the directory walk and the file filter -/

theorem posixJoin_injective (d : String) : Function.Injective (posixJoin d) := by
  intro r1 r2 h
  unfold posixJoin at h
  by_cases hd : endsWithSlash d = true
  · rw [if_pos hd, if_pos hd] at h
    have h2 := congrArg String.data h
    simp only [data_append] at h2
    exact str_ext (List.append_cancel_left h2)
  · rw [if_neg hd, if_neg hd] at h
    have h2 := congrArg String.data h
    simp only [data_append] at h2
    exact str_ext (List.append_cancel_left h2)

theorem scan_tasks_fst {d dst : String} {ir : Bool} :
    ∀ files : List String,
      (scanDirectory d dst ir files).upload_tasks.map Prod.fst
        = (files.filter (fun rel => !(pathName (posixJoin d rel) == ".DS_Store"))).map
            (fun rel => posixJoin d rel) := by
  intro files
  induction files with
  | nil => rfl
  | cons rel rest ih =>
    cases hds : pathName (posixJoin d rel) == ".DS_Store" <;>
      simp [scanDirectory, hds, ih]

theorem scan_excluded {d dst : String} {ir : Bool} :
    ∀ files : List String,
      (scanDirectory d dst ir files).excluded_files
        = (files.filter (fun rel => pathName (posixJoin d rel) == ".DS_Store")).map
            (fun rel => posixJoin d rel) := by
  intro files
  induction files with
  | nil => rfl
  | cons rel rest ih =>
    cases hds : pathName (posixJoin d rel) == ".DS_Store" <;>
      simp [scanDirectory, hds, ih]

theorem scan_warning {d dst : String} {ir : Bool} :
    ∀ files : List String,
      (scanDirectory d dst ir files).warning_files
        = (files.filter (fun rel =>
            !(pathName (posixJoin d rel) == ".DS_Store")
              && startsWithDot (pathName (posixJoin d rel)))).map
            (fun rel => posixJoin d rel) := by
  intro files
  induction files with
  | nil => rfl
  | cons rel rest ih =>
    cases hds : pathName (posixJoin d rel) == ".DS_Store" <;>
      cases hdot : startsWithDot (pathName (posixJoin d rel)) <;>
        simp [scanDirectory, hds, hdot, ih]

/-- Claim C6: with a duplicate-free walk, every regular file under the
directory whose name is not `.DS_Store` appears exactly once in the
generated task list; a file named `.DS_Store` is never scheduled and is
recorded as excluded; any other file whose name starts with `.` is
recorded in the pre-run warnings and still scheduled. -/
theorem claim_C6 (d dst : String) (ir : Bool) (files : List String) (rel : String)
    (hnd : files.Nodup) :
    (rel ∈ files → (pathName (posixJoin d rel) == ".DS_Store") = false →
      ((scanDirectory d dst ir files).upload_tasks.map Prod.fst).count (posixJoin d rel)
        = 1) ∧
    ((pathName (posixJoin d rel) == ".DS_Store") = true →
      posixJoin d rel ∉ (scanDirectory d dst ir files).upload_tasks.map Prod.fst) ∧
    (rel ∈ files → (pathName (posixJoin d rel) == ".DS_Store") = true →
      posixJoin d rel ∈ (scanDirectory d dst ir files).excluded_files) ∧
    (rel ∈ files → (pathName (posixJoin d rel) == ".DS_Store") = false →
      startsWithDot (pathName (posixJoin d rel)) = true →
      posixJoin d rel ∈ (scanDirectory d dst ir files).warning_files ∧
      posixJoin d rel ∈ (scanDirectory d dst ir files).upload_tasks.map Prod.fst) := by
  refine ⟨?_, ?_, ?_, ?_⟩
  · intro hmem hds
    rw [scan_tasks_fst, List.count_map_of_injective _ _ (posixJoin_injective d)]
    refine List.count_eq_one_of_mem (hnd.filter _) (List.mem_filter.mpr ⟨hmem, ?_⟩)
    rw [hds]
    rfl
  · intro hds hmem
    rw [scan_tasks_fst] at hmem
    rcases List.mem_map.mp hmem with ⟨r2, hr2, heq⟩
    have : r2 = rel := posixJoin_injective d heq
    subst this
    have hp := (List.mem_filter.mp hr2).2
    rw [hds] at hp
    exact absurd hp (by decide)
  · intro hmem hds
    rw [scan_excluded]
    exact List.mem_map.mpr ⟨rel, List.mem_filter.mpr ⟨hmem, hds⟩, rfl⟩
  · intro hmem hds hdot
    constructor
    · rw [scan_warning]
      refine List.mem_map.mpr ⟨rel, List.mem_filter.mpr ⟨hmem, ?_⟩, rfl⟩
      rw [hds, hdot]
      rfl
    · rw [scan_tasks_fst]
      refine List.mem_map.mpr ⟨rel, List.mem_filter.mpr ⟨hmem, ?_⟩, rfl⟩
      rw [hds]
      rfl

/-- Witness for C6: the walk `[".DS_Store", ".env", "a.txt"]` of `dist`
schedules `dist/a.txt` once, excludes `dist/.DS_Store`, and warns about
(while scheduling) `dist/.env`. -/
theorem claim_C6_witness :
    ((scanDirectory "dist" "/v" false [".DS_Store", ".env", "a.txt"]).upload_tasks.map
        Prod.fst).count (posixJoin "dist" "a.txt") = 1 ∧
    posixJoin "dist" ".DS_Store"
        ∈ (scanDirectory "dist" "/v" false [".DS_Store", ".env", "a.txt"]).excluded_files ∧
    posixJoin "dist" ".env"
        ∈ (scanDirectory "dist" "/v" false [".DS_Store", ".env", "a.txt"]).warning_files :=
  ⟨(claim_C6 "dist" "/v" false [".DS_Store", ".env", "a.txt"] "a.txt" (by decide)).1
      (by decide) (by decide),
   (claim_C6 "dist" "/v" false [".DS_Store", ".env", "a.txt"] ".DS_Store" (by decide)).2.2.1
      (by decide) (by decide),
   ((claim_C6 "dist" "/v" false [".DS_Store", ".env", "a.txt"] ".env" (by decide)).2.2.2
      (by decide) (by decide) (by decide)).1⟩

/-! ### Claim C3: overall success -/

/-- Scheduling-level errors (`SourceNotFound`, `UnsupportedPathType`,
`ExcludedSingleFile`): failures that occur before any transfer task
runs. -/
def isSchedError : Event → Bool
  | Event.sourceNotFound => true
  | Event.unsupportedType => true
  | Event.dsStoreExcludedSingle _ => true
  | _ => false

/-- Whether an event is an invocation of the storage client. -/
def isClientCall : Event → Bool
  | Event.clientCall _ _ _ => true
  | _ => false

/-- No scheduling-level error occurs in the trace. -/
def noSchedError (evs : List Event) : Bool :=
  evs.all (fun e => !isSchedError e)

/-- The storage client is never invoked in the trace. -/
def noClientCall (evs : List Event) : Bool :=
  evs.all (fun e => !isClientCall e)

theorem schedError_scanEvents (s : DirScan) :
    ∀ x ∈ scanEvents s, isSchedError x = false := by
  intro x hx
  rcases List.mem_append.mp hx with h | h <;>
    rcases List.mem_map.mp h with ⟨y, _, rfl⟩ <;> rfl

theorem clientCall_scanEvents (s : DirScan) :
    ∀ x ∈ scanEvents s, isClientCall x = false := by
  intro x hx
  rcases List.mem_append.mp hx with h | h <;>
    rcases List.mem_map.mp h with ⟨y, _, rfl⟩ <;> rfl

theorem schedError_runTasks (oracle : String → String → Bool) :
    ∀ (tasks : List (String × String)) (t : Tally),
      ∀ x ∈ (runTasks oracle t tasks).2, isSchedError x = false := by
  intro tasks
  induction tasks with
  | nil =>
    intro t x hx
    simp [runTasks] at hx
  | cons task rest ih =>
    intro t x hx
    cases h : oracle task.1 task.2 <;>
      simp [runTasks, upload_single_file, h] at hx <;>
      rcases hx with hx | hx | hx <;>
        first
          | (subst hx; rfl)
          | exact ih _ x hx

/-- Claim C3: `upload` returns `true` exactly when the final failure
counter is zero and no scheduling-level error occurred, scheduling
errors being source-not-found, unsupported path type, and the
single-file `.DS_Store` exclusion (the error kinds the specification
lists as fatal before any transfer).  A directory whose walk leaves no
eligible task succeeds with untouched counters and no client call; a
single-file source named `.DS_Store` fails without invoking the
client. -/
theorem claim_C3 :
    (∀ (oracle : String → String → Bool) (src : String) (kind : PathKind)
        (dst : String) (ir : Bool),
      (upload oracle src kind dst ir).ok = true ↔
        ((upload oracle src kind dst ir).tally.failed = 0 ∧
          noSchedError (upload oracle src kind dst ir).events = true)) ∧
    (∀ (oracle : String → String → Bool) (src dst : String) (ir : Bool)
        (files : List String),
      (scanDirectory src (rstripSlashes dst) ir files).upload_tasks = [] →
      (upload oracle src (PathKind.dir files) dst ir).ok = true ∧
        (upload oracle src (PathKind.dir files) dst ir).tally = ⟨0, 0⟩ ∧
        noClientCall (upload oracle src (PathKind.dir files) dst ir).events = true) ∧
    (∀ (oracle : String → String → Bool) (src dst : String) (ir : Bool),
      pathName src = ".DS_Store" →
      (upload oracle src PathKind.file dst ir).ok = false ∧
        (upload oracle src PathKind.file dst ir).tally = ⟨0, 0⟩ ∧
        noClientCall (upload oracle src PathKind.file dst ir).events = true) := by
  refine ⟨?_, ?_, ?_⟩
  · intro oracle src kind dst ir
    cases kind with
    | missing => simp [upload, noSchedError, isSchedError]
    | other => simp [upload, noSchedError, isSchedError]
    | file =>
      cases hds : pathName src == ".DS_Store" with
      | true => simp [upload, upload_single_file_sync, hds, noSchedError, isSchedError]
      | false =>
        cases hw : startsWithDot (pathName src) <;>
          cases hor : oracle src (singleFileKey (rstripSlashes dst) (pathName src)) <;>
            simp [upload, upload_single_file_sync, upload_single_file, hds, hw, hor,
              noSchedError, isSchedError]
    | dir files =>
      cases htasks : (scanDirectory src (rstripSlashes dst) ir files).upload_tasks with
      | nil =>
        simp [upload, upload_directory, dispatchTasks, htasks, noSchedError,
          List.all_append, isSchedError]
        exact fun x hx => schedError_scanEvents _ x hx
      | cons t1 rest1 =>
        cases rest1 with
        | nil =>
          cases hor : oracle t1.1 t1.2 <;>
            simp [upload, upload_directory, dispatchTasks, htasks, upload_single_file,
              hor, noSchedError, List.all_append, isSchedError]
          all_goals exact fun x hx => schedError_scanEvents _ x hx
        | cons t2 rest =>
          simp [upload, upload_directory, dispatchTasks, htasks, upload_concurrent,
            noSchedError, List.all_append, isSchedError]
          intro _
          exact ⟨fun x hx => schedError_scanEvents _ x hx,
            fun x hx => schedError_runTasks oracle _ _ x hx⟩
  · intro oracle src dst ir files htasks
    simp [upload, upload_directory, dispatchTasks, htasks, noClientCall,
      List.all_append, isClientCall]
    exact fun x hx => clientCall_scanEvents _ x hx
  · intro oracle src dst ir hds
    have hb : (pathName src == ".DS_Store") = true := by
      rw [hds]
      rfl
    simp [upload, upload_single_file_sync, hb, noClientCall, isClientCall]

/-- Witness for C3: an empty directory succeeds with no client call;
a single `.DS_Store` file fails without a client call; the success
criterion holds at a concrete failing run. -/
theorem claim_C3_witness :
    ((upload (fun _ _ => true) "dist" (PathKind.dir []) "/v" false).ok = true ∧
      (upload (fun _ _ => true) "dist" (PathKind.dir []) "/v" false).tally = ⟨0, 0⟩ ∧
      noClientCall (upload (fun _ _ => true) "dist" (PathKind.dir []) "/v" false).events
        = true) ∧
    ((upload (fun _ _ => true) ".DS_Store" PathKind.file "/v" false).ok = false ∧
      (upload (fun _ _ => true) ".DS_Store" PathKind.file "/v" false).tally = ⟨0, 0⟩ ∧
      noClientCall
          (upload (fun _ _ => true) ".DS_Store" PathKind.file "/v" false).events = true) :=
  ⟨claim_C3.2.1 (fun _ _ => true) "dist" "/v" false [] (by decide),
   claim_C3.2.2 (fun _ _ => true) ".DS_Store" "/v" false (by decide)⟩

end S3Upload
